import Mathlib

/-!
Verification of the Polybet temporal market resolver (src/backend) against its
natural-language specification.  The Python source is shallowly embedded:
Python `str` becomes Lean `String`, Python `int` becomes `Nat`/`Int`, JSON
values become the inductive `JVal`, network I/O becomes explicit oracles
(`String → HttpResp`), and a Python function that can raise an exception
becomes a Lean function returning `Option`/`Except`.
-/

namespace Polybet

/-! ### Python string primitives -/

/-- Decimal digit character, as produced by Python `str(...)` of an integer. -/
def digitChar (d : Nat) : Char :=
  match d with
  | 0 => '0' | 1 => '1' | 2 => '2' | 3 => '3' | 4 => '4'
  | 5 => '5' | 6 => '6' | 7 => '7' | 8 => '8' | _ => '9'

/-- Decimal digit list of a natural number (most significant first), with fuel
for termination; `fuel > n` suffices. -/
def natToDigits : Nat → Nat → List Char
  | 0, _ => []
  | fuel + 1, n =>
    if n < 10 then [digitChar n] else natToDigits fuel (n / 10) ++ [digitChar (n % 10)]

/-- Models Python `str(n)` for a non-negative integer `n`. -/
def pyStrOfNat (n : Nat) : String := ⟨natToDigits (n + 1) n⟩

/-- Models Python `str(n)` for an arbitrary integer. -/
def pyStrOfInt (n : Int) : String :=
  if n < 0 then "-" ++ pyStrOfNat n.natAbs else pyStrOfNat n.toNat

/-- Models Python `int(s)` on a string of decimal digits. -/
def pyIntOfChars (cs : List Char) : Nat :=
  cs.foldl (fun a c => a * 10 + (c.toNat - 48)) 0

/-- Models Python `s.isdigit()` (ASCII digits, as used by the slugs at hand):
true iff the string is non-empty and every character is a decimal digit. -/
def pyIsDigit (s : String) : Bool :=
  !s.data.isEmpty && s.data.all Char.isDigit

/-- Models Python `s.split("-")`. -/
def pySplitDash (s : String) : List String :=
  (s.data.splitOn '-').map fun cs => ⟨cs⟩

/-- Models Python `"-".join(ps)`. -/
def pyJoinDash (ps : List String) : String :=
  ⟨List.intercalate ['-'] (ps.map String.data)⟩

/-- List-level prefix test (`hay` starts with `pre`). -/
def startsWithL : List Char → List Char → Bool
  | _, [] => true
  | [], _ :: _ => false
  | h :: hs, p :: ps => h == p && startsWithL hs ps

/-- List-level substring containment test. -/
def containsL : List Char → List Char → Bool
  | [], needle => needle.isEmpty
  | h :: t, needle => startsWithL (h :: t) needle || containsL t needle

/-- Models Python `needle in hay` on strings (substring containment). -/
def strContains (hay needle : String) : Bool :=
  containsL hay.data needle.data

/-- Models Python `s.startswith(pre)`. -/
def strStartsWith (s pre : String) : Bool :=
  startsWithL s.data pre.data

/-- Models Python `s.lower()` (ASCII case folding, sufficient for the slugs
and identifiers at hand). -/
def pyToLower (s : String) : String :=
  ⟨s.data.map Char.toLower⟩

/-! ### src/backend/utils.py -/

/-- Models `get_current_15min_timestamp` (utils.py lines 9-20): the current UTC
time has its minute rounded down to a multiple of 15 and its seconds zeroed.
`now` is the Unix timestamp in whole seconds; `now % 3600` is the seconds into
the current hour, from which the datetime's `minute` field is `/ 60`. -/
def get_current_15min_timestamp (now : Nat) : Nat :=
  let secsIntoHour := now % 3600
  let minute := secsIntoHour / 60
  let minutes := minute / 15 * 15
  now - secsIntoHour + minutes * 60

/-- Models `get_next_15min_timestamp` (utils.py lines 23-32). -/
def get_next_15min_timestamp (now : Nat) : Nat :=
  get_current_15min_timestamp now + 900

/-- Models `extract_timestamp_from_slug` (utils.py lines 35-51): take the last
"-"-separated segment; if it is all digits, parse it, else None.  The split of
a string is never empty, so the `if parts:` guard always passes. -/
def extract_timestamp_from_slug (slug : String) : Option Nat :=
  let parts := pySplitDash slug
  let timestamp_str := parts.getLastD ""
  if pyIsDigit timestamp_str then some (pyIntOfChars timestamp_str.data) else none

/-- Models `update_slug_with_current_timestamp` (utils.py lines 54-76): strip a
trailing all-digit segment (only when there are at least two segments), then
append `"-" + str(current timestamp)`. -/
def update_slug_with_current_timestamp (now : Nat) (base_slug : String) : String :=
  let parts := pySplitDash base_slug
  let base_parts :=
    if parts.length > 1 && pyIsDigit (parts.getLastD "") then parts.dropLast else parts
  pyJoinDash base_parts ++ "-" ++ pyStrOfNat (get_current_15min_timestamp now)

/-- Models `is_15min_interval_market` (utils.py lines 79-92). -/
def is_15min_interval_market (condition_id_or_slug : String) : Bool :=
  let slug_lower := pyToLower condition_id_or_slug
  strContains slug_lower "-15m-" ||
    strStartsWith slug_lower "btc-updown-15m" ||
    strStartsWith slug_lower "eth-updown-15m"

/-- Models `get_seconds_until_next_15min` (utils.py lines 95-109) at the
program's full microsecond resolution: `now_us` is the current UTC instant
in microseconds since the epoch, as carried by `datetime.now(timezone.utc)`.
The current interval start is computed from the whole-second part (the
rounding zeroes the datetime's second and microsecond fields), and
`int(delta.total_seconds())` truncates the remaining time toward zero; that
delta is always strictly positive, so the truncation is exactly the floor
`(next * 10^6 - now_us) / 10^6` in natural division (the float rounding of
`total_seconds`, at most ~1e-13 s here, is far too small to cross an
integer, since the exact delta is a multiple of 1e-6 s). -/
def get_seconds_until_next_15min (now_us : Nat) : Nat :=
  let now_s := now_us / 1000000
  let next_timestamp := get_current_15min_timestamp now_s + 900
  (next_timestamp * 1000000 - now_us) / 1000000

/-! ### Arithmetic facts about the window calculator -/

theorem get_current_15min_timestamp_eq (now : Nat) :
    get_current_15min_timestamp now = now / 900 * 900 := by
  show now - now % 3600 + now % 3600 / 60 / 15 * 15 * 60 = now / 900 * 900
  omega

/-- C6: the current-window computation returns `floor(now / 900) * 900`; the
result is a multiple of 900 and satisfies `result ≤ now < result + 900`. -/
theorem c6_current_window (now : Nat) :
    get_current_15min_timestamp now = now / 900 * 900 ∧
    900 ∣ get_current_15min_timestamp now ∧
    get_current_15min_timestamp now ≤ now ∧
    now < get_current_15min_timestamp now + 900 := by
  have h := get_current_15min_timestamp_eq now
  refine ⟨h, ⟨now / 900, by rw [h]; ring⟩, by rw [h]; omega, by rw [h]; omega⟩

/-- C5 counterexample: at a clock instant lying exactly on a window boundary
(1700000100 s = 900 s * 1888889, with zero microseconds) the
seconds-until-next-window function returns 900, which is not in the
half-open interval [0, 900) the claim asserts. -/
theorem c5_counterexample :
    get_seconds_until_next_15min 1700000100000000 = 900 ∧
    ¬ get_seconds_until_next_15min 1700000100000000 < 900 := by
  have h : get_seconds_until_next_15min 1700000100000000 = 900 := by
    simp only [get_seconds_until_next_15min]
    rw [get_current_15min_timestamp_eq]
  exact ⟨h, by omega⟩

/-- C5 amended: the seconds-until-next-window value lies in the closed
interval [0, 900]: it never exceeds 900, equals the full width 900 exactly
at a window-boundary instant (a whole-second multiple of 900 with zero
microseconds), and equals 0 exactly during the final fractional second of a
window, where `int(delta.total_seconds())` truncates to zero. -/
theorem c5_amended (now_us : Nat) :
    get_seconds_until_next_15min now_us ≤ 900 ∧
    (get_seconds_until_next_15min now_us = 900 ↔ now_us % 900000000 = 0) ∧
    (get_seconds_until_next_15min now_us = 0 ↔ 899000000 < now_us % 900000000) := by
  simp only [get_seconds_until_next_15min]
  rw [get_current_15min_timestamp_eq]
  omega

/-! ### The identifier classifier -/

/-- Kind of a market identifier: periodic (rotating every window) or static. -/
inductive MarketKind
  | STATIC
  | PERIODIC
deriving DecidableEq

/-- Result of classifying an identifier. -/
structure Classified where
  kind : MarketKind
  base_pattern : String
  embedded_timestamp : Option Nat
deriving DecidableEq

/-- Models the base-pattern extraction of `_fetch_active_market_by_pattern`
(clob_client.py lines 157-163): strip the trailing segment when the pattern
contains a dash and its last "-"-separated segment is all digits. -/
def basePatternOf (slug_pattern : String) : String :=
  let parts := pySplitDash slug_pattern
  if strContains slug_pattern "-" && pyIsDigit (parts.getLastD "") then
    pyJoinDash parts.dropLast
  else slug_pattern

/-- Identifier classifier as realized by the code: `is_15min_interval_market`
gates the periodic path (clob_client.py line 278); the periodic path derives
the base pattern (clob_client.py lines 157-163) and the embedded timestamp
(`extract_timestamp_from_slug`); a static identifier is passed through the
slug / condition-id lookups unaltered. -/
def classify (identifier : String) : Classified :=
  if is_15min_interval_market identifier then
    ⟨.PERIODIC, basePatternOf identifier, extract_timestamp_from_slug identifier⟩
  else
    ⟨.STATIC, identifier, none⟩

/-! ### Digit-string lemmas -/

theorem digitChar_isDigit {d : Nat} (h : d < 10) : (digitChar d).isDigit = true := by
  interval_cases d <;> decide

theorem digitChar_toNat {d : Nat} (h : d < 10) : (digitChar d).toNat - 48 = d := by
  interval_cases d <;> decide

theorem natToDigits_spec :
    ∀ fuel n, n < fuel →
      natToDigits fuel n ≠ [] ∧
      (∀ c ∈ natToDigits fuel n, c.isDigit = true) ∧
      pyIntOfChars (natToDigits fuel n) = n := by
  intro fuel
  induction fuel with
  | zero => intro n h; omega
  | succ fuel ih =>
    intro n h
    by_cases h10 : n < 10
    · refine ⟨by simp [natToDigits, h10], ?_, ?_⟩
      · intro c hc
        simp [natToDigits, h10] at hc
        subst hc
        exact digitChar_isDigit h10
      · simp [natToDigits, h10, pyIntOfChars, digitChar_toNat h10]
    · have hq : n / 10 < fuel := by omega
      obtain ⟨hne, hdig, hval⟩ := ih (n / 10) hq
      have hstep : natToDigits (fuel + 1) n =
          natToDigits fuel (n / 10) ++ [digitChar (n % 10)] := by
        simp [natToDigits, h10]
      refine ⟨by simp [hstep], ?_, ?_⟩
      · intro c hc
        rw [hstep] at hc
        rcases List.mem_append.mp hc with hc | hc
        · exact hdig c hc
        · simp at hc
          subst hc
          exact digitChar_isDigit (Nat.mod_lt _ (by omega))
      · rw [hstep]
        unfold pyIntOfChars at hval ⊢
        rw [List.foldl_append]
        simp [hval, digitChar_toNat (Nat.mod_lt n (show 0 < 10 by omega))]
        omega

theorem pyStrOfNat_isDigit (n : Nat) : pyIsDigit (pyStrOfNat n) = true := by
  obtain ⟨hne, hdig, _⟩ := natToDigits_spec (n + 1) n (by omega)
  show (!(natToDigits (n + 1) n).isEmpty && (natToDigits (n + 1) n).all Char.isDigit) = true
  rw [Bool.and_eq_true]
  exact ⟨by simpa [List.isEmpty_iff] using hne, by rw [List.all_eq_true]; exact hdig⟩

theorem pyStrOfNat_val (n : Nat) : pyIntOfChars (pyStrOfNat n).data = n :=
  (natToDigits_spec (n + 1) n (by omega)).2.2

theorem isDigit_ne_dash {c : Char} (h : c.isDigit = true) : c ≠ '-' := by
  intro heq
  rw [heq] at h
  exact absurd h (by decide)

theorem pyStrOfNat_no_dash (n : Nat) : '-' ∉ (pyStrOfNat n).data := by
  intro hmem
  obtain ⟨_, hdig, _⟩ := natToDigits_spec (n + 1) n (by omega)
  exact isDigit_ne_dash (hdig _ hmem) rfl

/-! ### splitOn / intercalate lemmas -/

theorem splitOnP_no_sep {α : Type} {p : α → Bool} :
    ∀ xs : List α, ∀ l ∈ xs.splitOnP p, ∀ a ∈ l, p a = false := by
  intro xs
  induction xs with
  | nil =>
    intro l hl a ha
    simp [List.splitOnP_nil] at hl
    subst hl
    simp at ha
  | cons x xs ih =>
    intro l hl a ha
    rw [List.splitOnP_cons] at hl
    by_cases hx : p x
    · rw [if_pos hx] at hl
      rcases List.mem_cons.mp hl with rfl | hl
      · simp at ha
      · exact ih l hl a ha
    · rw [if_neg hx] at hl
      obtain ⟨h0, t, heq⟩ := List.exists_cons_of_ne_nil (List.splitOnP_ne_nil p xs)
      rw [heq, List.modifyHead_cons] at hl
      rcases List.mem_cons.mp hl with rfl | hl
      · rcases List.mem_cons.mp ha with rfl | ha
        · simpa using hx
        · exact ih h0 (heq ▸ List.mem_cons_self h0 t) a ha
      · exact ih l (heq ▸ List.mem_cons_of_mem h0 hl) a ha

theorem mem_pySplitDash_no_dash {s part : String} (h : part ∈ pySplitDash s) :
    '-' ∉ part.data := by
  intro hmem
  unfold pySplitDash at h
  obtain ⟨cs, hcs, heq⟩ := List.mem_map.mp h
  have : part.data = cs := by rw [← heq]
  rw [this] at hmem
  have := splitOnP_no_sep s.data cs hcs '-' hmem
  simp at this

theorem string_eta (s : String) : (⟨s.data⟩ : String) = s := rfl

theorem intercalate_concat {α : Type} (sep : List α) :
    ∀ (xs : List (List α)) (y : List α), xs ≠ [] →
      List.intercalate sep (xs ++ [y]) = List.intercalate sep xs ++ sep ++ y := by
  intro xs
  induction xs with
  | nil => intro y h; exact absurd rfl h
  | cons x xs ih =>
    intro y _
    cases xs with
    | nil => simp [List.intercalate]
    | cons x2 xs2 =>
      have h2 := ih y (by simp)
      simp only [List.cons_append, List.intercalate, List.intersperse_cons₂,
        List.flatten_cons] at h2 ⊢
      rw [h2]
      simp [List.append_assoc]

theorem pySplitDash_join_concat (bp : List String) (ds : String)
    (hbp : bp ≠ []) (hmem : ∀ p ∈ bp, '-' ∉ p.data) (hds : '-' ∉ ds.data) :
    pySplitDash (pyJoinDash bp ++ "-" ++ ds) = bp ++ [ds] := by
  have hdata : (pyJoinDash bp ++ "-" ++ ds).data =
      List.intercalate ['-'] (bp.map String.data ++ [ds.data]) := by
    rw [intercalate_concat ['-'] (bp.map String.data) ds.data (by simpa using hbp)]
    simp [pyJoinDash]
  unfold pySplitDash
  rw [hdata, List.splitOn_intercalate (bp.map String.data ++ [ds.data]) '-' ?hx ?hls]
  · rw [List.map_append, List.map_map]
    have hcomp : ((fun cs => (⟨cs⟩ : String)) ∘ String.data) = id := funext fun s => string_eta s
    rw [hcomp, List.map_id]
    simp [string_eta]
  case hx =>
    intro l hl
    rcases List.mem_append.mp hl with hl | hl
    · obtain ⟨s, hs, rfl⟩ := List.mem_map.mp hl
      exact hmem s hs
    · simp at hl
      subst hl
      exact hds
  case hls => simp

/-! ### C9 and C10 -/

/-- C9: classifying "btc-updown-15m-1761921000" yields kind PERIODIC with base
pattern "btc-updown-15m" and embedded timestamp 1761921000; an identifier with
a hex-address prefix such as "0xabc123..." is STATIC; and a STATIC identifier
is never stripped, even when it ends in a numeric-looking segment — stripping
only happens when the periodic family marker is present. -/
theorem c9_classifier :
    classify "btc-updown-15m-1761921000" =
      ⟨.PERIODIC, "btc-updown-15m", some 1761921000⟩ ∧
    (classify "0xabc123...").kind = .STATIC ∧
    (classify "0xabc123...").base_pattern = "0xabc123..." ∧
    (classify "0x1234-999").kind = .STATIC ∧
    (classify "0x1234-999").base_pattern = "0x1234-999" ∧
    ∀ identifier : String, (classify identifier).kind = .STATIC →
      (classify identifier).base_pattern = identifier := by
  refine ⟨by decide, by decide, by decide, by decide, by decide, ?_⟩
  intro id h
  by_cases hm : is_15min_interval_market id
  · simp [classify, hm] at h
  · simp [classify, hm]

/-- C9 witness: the universally quantified part of `c9_classifier` applied to
the concrete static identifier "0xdeadbeef-42". -/
theorem c9_classifier_witness :
    (classify "0xdeadbeef-42").base_pattern = "0xdeadbeef-42" :=
  c9_classifier.2.2.2.2.2 "0xdeadbeef-42" (by decide)

theorem pySplitDash_ne_nil (s : String) : pySplitDash s ≠ [] := by
  intro h
  unfold pySplitDash at h
  exact List.splitOnP_ne_nil _ _ (List.map_eq_nil_iff.mp h)

theorem update_slug_parts (now : Nat) (base_slug : String) :
    ∃ bp : List String, bp ≠ [] ∧ (∀ p ∈ bp, '-' ∉ p.data) ∧
      update_slug_with_current_timestamp now base_slug =
        pyJoinDash bp ++ "-" ++ pyStrOfNat (get_current_15min_timestamp now) := by
  simp only [update_slug_with_current_timestamp]
  split_ifs with hc
  · refine ⟨(pySplitDash base_slug).dropLast, ?_,
      fun p hp => mem_pySplitDash_no_dash ((List.dropLast_sublist _).subset hp), rfl⟩
    have h1 : 1 < (pySplitDash base_slug).length :=
      of_decide_eq_true ((Bool.and_eq_true _ _).mp hc).1
    intro hnil
    have hlen := List.length_dropLast (pySplitDash base_slug)
    rw [hnil] at hlen
    simp at hlen
    omega
  · exact ⟨pySplitDash base_slug, pySplitDash_ne_nil base_slug,
      fun p hp => mem_pySplitDash_no_dash hp, rfl⟩

theorem extract_timestamp_update_slug (now : Nat) (slug : String) :
    extract_timestamp_from_slug (update_slug_with_current_timestamp now slug) =
      some (get_current_15min_timestamp now) := by
  obtain ⟨bp, hne, hmem, heq⟩ := update_slug_parts now slug
  rw [heq]
  simp only [extract_timestamp_from_slug]
  rw [pySplitDash_join_concat bp _ hne hmem (pyStrOfNat_no_dash _),
    List.getLastD_concat, pyStrOfNat_isDigit, if_pos rfl, pyStrOfNat_val]

theorem update_slug_idempotent (now : Nat) (slug : String) :
    update_slug_with_current_timestamp now (update_slug_with_current_timestamp now slug) =
      update_slug_with_current_timestamp now slug := by
  obtain ⟨bp, hne, hmem, heq⟩ := update_slug_parts now slug
  rw [heq]
  simp only [update_slug_with_current_timestamp]
  rw [pySplitDash_join_concat bp _ hne hmem (pyStrOfNat_no_dash _)]
  rw [if_pos ?hcond]
  · rw [List.dropLast_concat]
  case hcond =>
    rw [Bool.and_eq_true]
    constructor
    · apply decide_eq_true
      have : bp.length ≠ 0 := fun h => hne (List.eq_nil_of_length_eq_zero h)
      simp only [List.length_append, List.length_cons, List.length_nil]
      omega
    · rw [List.getLastD_concat]
      exact pyStrOfNat_isDigit _

/-- C10: at a fixed clock instant, `update_slug_with_current_timestamp` is
idempotent; its output always ends in "-" followed by the decimal rendering of
the current window start; and extracting the trailing timestamp from the
output returns exactly the current window start. -/
theorem c10_update_slug (now : Nat) (slug : String) :
    update_slug_with_current_timestamp now (update_slug_with_current_timestamp now slug) =
      update_slug_with_current_timestamp now slug ∧
    (∃ stem : String, update_slug_with_current_timestamp now slug =
        stem ++ "-" ++ pyStrOfNat (get_current_15min_timestamp now)) ∧
    extract_timestamp_from_slug (update_slug_with_current_timestamp now slug) =
      some (get_current_15min_timestamp now) := by
  obtain ⟨bp, hne, hmem, heq⟩ := update_slug_parts now slug
  exact ⟨update_slug_idempotent now slug, ⟨pyJoinDash bp, heq⟩,
    extract_timestamp_update_slug now slug⟩

/-! ### JSON values and Python dict/truthiness primitives -/

/-- Exact decimal number `mant / 10 ^ fexp`, the value denoted by the decimal
numerals in the market data.  The Python code never performs arithmetic on
these numbers — they are parsed, defaulted and copied — so an exact decimal
representation is a faithful model of the float values involved, and unlike
`ℚ` (whose operations are irreducible) it keeps every definition
kernel-computable. -/
structure Dec where
  mant : Int
  fexp : Nat
deriving DecidableEq

/-- The default price 0.5. -/
def Dec.half : Dec := ⟨5, 1⟩

/-- JSON-like value, the shape of records exchanged with the market-listing
service (Python objects produced by `response.json()`). -/
inductive JVal where
  | null
  | bool (b : Bool)
  | num (q : Dec)
  | str (s : String)
  | arr (elems : List JVal)
  | obj (fields : List (String × JVal))

/-- Models Python truthiness (`bool(v)`) on JSON values: None, False, 0, "",
[] and {} are falsy. -/
def pyTruthy : JVal → Bool
  | .null => false
  | .bool b => b
  | .num q => decide (q.mant ≠ 0)
  | .str s => !s.data.isEmpty
  | .arr xs => !xs.isEmpty
  | .obj fs => !fs.isEmpty

/-- Models Python `d.get(k, default)` on an ordered dict represented as an
association list (first match wins; Python dicts have unique keys). -/
def pyGet (fs : List (String × JVal)) (k : String) (d : JVal) : JVal :=
  match fs with
  | [] => d
  | (k', v) :: rest => if k' == k then v else pyGet rest k d

/-- Dict lookup lifted to a JSON value.  The functions below only apply this
to values that are dicts at that point of the Python code (non-dict values
have been rejected earlier, see `fetch_market_by_slug`), so the default
branch is unreachable there. -/
def jGet (m : JVal) (k : String) (d : JVal) : JVal :=
  match m with
  | .obj fs => pyGet fs k d
  | _ => d

/-- Models `market.get("active", True) and not market.get("closed", False)`,
the activity check used throughout clob_client.py. -/
def isActiveJ (m : JVal) : Bool :=
  pyTruthy (jGet m "active" (.bool true)) && !pyTruthy (jGet m "closed" (.bool false))

/-- Truthiness of an optional value (Python variables that may hold None). -/
def optTruthy : Option JVal → Bool
  | none => false
  | some v => pyTruthy v

/-- Models Python `s.strip()` (whitespace trimming). -/
def isPySpace (c : Char) : Bool :=
  c == ' ' || c == '\t' || c == '\n' || c == '\r' || c.toNat == 11 || c.toNat == 12

/-- Models Python `s.strip()`. -/
def pyTrim (s : String) : String :=
  ⟨((s.data.dropWhile isPySpace).reverse.dropWhile isPySpace).reverse⟩

/-! ### The market fetch adapter -/

/-- Response of the external listing service for one HTTP request: a status
code with a parsed JSON body, or a network-level failure (timeout, connection
error — anything that makes `requests.get` itself raise). -/
inductive HttpResp where
  | resp (status : Nat) (body : JVal)
  | netError

/-- Models `_fetch_market_by_slug` (clob_client.py lines 90-143) over an HTTP
oracle `g` mapping the requested slug to its response.  A 404 returns None
(line 113-115); any other non-2xx status makes `raise_for_status` raise an
HTTPError whose handler returns None (lines 133-138); a network failure hits
the generic handler and returns None (lines 139-143); a 2xx response returns
the parsed record — even a closed one, activity is only logged (lines
120-131).  A 2xx body that is not a dict raises AttributeError at the
`market.get` on line 121, also caught by the generic handler, hence None. -/
def fetch_market_by_slug (g : String → HttpResp) (slug : String) : Option JVal :=
  match g (pyTrim slug) with
  | .netError => none
  | .resp status body =>
    if status == 404 then none
    else if 400 ≤ status then none
    else
      match body with
      | .obj fs => some (.obj fs)
      | _ => none

/-- C3 counterexample: the fetch-by-slug operation does **not** distinguish
its failure modes — a 404 response, a 500 response and a network failure all
yield the very same outcome `none`; the caller of the cascade cannot tell
"doesn't exist yet" apart from "service is down". -/
theorem c3_counterexample :
    fetch_market_by_slug (fun _ => .resp 404 .null) "btc-updown-15m-1700000000" = none ∧
    fetch_market_by_slug (fun _ => .resp 500 .null) "btc-updown-15m-1700000000" = none ∧
    fetch_market_by_slug (fun _ => .netError) "btc-updown-15m-1700000000" = none :=
  ⟨rfl, rfl, rfl⟩

/-- C3 amended: fetch-by-slug collapses every failure mode to the single
outcome None — a 404, any other non-2xx response, and a network failure are
indistinguishable to the caller (they differ only in the log); a 2xx response
with a record body is returned as-is. -/
theorem c3_amended (g : String → HttpResp) (slug : String) :
    (∀ body, g (pyTrim slug) = .resp 404 body → fetch_market_by_slug g slug = none) ∧
    (∀ status body, g (pyTrim slug) = .resp status body → 400 ≤ status →
      fetch_market_by_slug g slug = none) ∧
    (g (pyTrim slug) = .netError → fetch_market_by_slug g slug = none) ∧
    (∀ status fs, g (pyTrim slug) = .resp status (.obj fs) → status ≠ 404 → status < 400 →
      fetch_market_by_slug g slug = some (.obj fs)) := by
  refine ⟨?_, ?_, ?_, ?_⟩
  · intro body h
    simp [fetch_market_by_slug, h]
  · intro status body h hs
    simp [fetch_market_by_slug, h, hs]
  · intro h
    simp [fetch_market_by_slug, h]
  · intro status fs h h404 hlt
    have h2 : ¬ 400 ≤ status := by omega
    simp [fetch_market_by_slug, h, h404, h2]

/-- C3 witness: the amended theorem applied at a concrete 500-response oracle
and at a concrete success oracle. -/
theorem c3_amended_witness :
    fetch_market_by_slug (fun _ => .resp 500 .null) "demo-slug" = none ∧
    fetch_market_by_slug (fun _ => .resp 200 (.obj [("question", .str "q")])) "demo-slug" =
      some (.obj [("question", .str "q")]) :=
  ⟨(c3_amended (fun _ => .resp 500 .null) "demo-slug").2.1 500 .null rfl (by decide),
   (c3_amended (fun _ => .resp 200 (.obj [("question", .str "q")])) "demo-slug").2.2.2
     200 [("question", .str "q")] rfl (by decide) (by decide)⟩

/-! ### The fallback searcher (clob_client.py lines 198-253) -/

/-- One entry of the `matching_markets` list built by the fallback search
(clob_client.py lines 226-232): the raw record, its slug, the extracted
trailing timestamp, the computed activity flag, and the raw `closed` value. -/
structure MatchEntry where
  market : JVal
  slug : String
  timestamp : Option Nat
  active : Bool
  closedV : JVal

/-- Ranking key of the fallback search: `x["timestamp"] or 0` (line 239). -/
def entryKey (e : MatchEntry) : Nat := e.timestamp.getD 0

/-- Models the match-collection loop (clob_client.py lines 213-232).  Returns
`none` when the loop raises — a non-dict record (`market.get` raises
AttributeError) or a truthy non-string slug (`slug.lower()` raises) — which
the enclosing handler turns into a `None` result for the whole search. -/
def buildMatches (base_pattern : String) : List JVal → Option (List MatchEntry)
  | [] => some []
  | m :: rest =>
    match m with
    | .obj fs =>
      let slugV := pyGet fs "slug" (.str "")
      if pyTruthy slugV then
        match slugV with
        | .str slug =>
          let slug_lower := pyToLower slug
          let pattern_lower := pyToLower base_pattern
          if strContains slug_lower pattern_lower || strStartsWith slug_lower pattern_lower then
            match buildMatches base_pattern rest with
            | some ms => some (⟨.obj fs, slug, extract_timestamp_from_slug slug,
                isActiveJ (.obj fs), pyGet fs "closed" (.bool false)⟩ :: ms)
            | none => none
          else buildMatches base_pattern rest
        | _ => none
      else buildMatches base_pattern rest
    | _ => none

/-- Stable descending insertion: place `e` before the first element whose key
is less than or equal to `e`'s key (elements inserted earlier with equal keys
stay in front, elements inserted later go behind). -/
def insertDesc (e : MatchEntry) : List MatchEntry → List MatchEntry
  | [] => [e]
  | x :: xs => if entryKey x ≤ entryKey e then e :: x :: xs else x :: insertDesc e xs

/-- Models `matching_markets.sort(key=lambda x: x["timestamp"] or 0,
reverse=True)` (line 239): the stable sort, descending by extracted timestamp,
records with no timestamp ranking as 0, ties keeping listing order.  A stable
descending order by a fixed key is unique, so this insertion sort computes
exactly the permutation Python's sort produces. -/
def sortMatches (ms : List MatchEntry) : List MatchEntry :=
  ms.foldr insertDesc []

/-- Models the bulk-listing fallback block of `_fetch_active_market_by_pattern`
(clob_client.py lines 198-253) over the listing response `lr`.  A failed
listing request (`raise_for_status`, line 204) or a raising match loop is
caught by the enclosing handler and yields None.  A body that is neither an
array nor a dict with an array `"data"` field yields an empty market list
(lines 207-208) — or raises while iterating a non-list, which also ends in
None — so it is modelled as the empty listing, making every such case None. -/
def pattern_fallback_search (lr : HttpResp) (base_pattern : String) : Option JVal :=
  match lr with
  | .netError => none
  | .resp status body =>
    if 400 ≤ status then none
    else
      let all_markets : List JVal :=
        match body with
        | .arr xs => xs
        | .obj fs =>
          match pyGet fs "data" (.arr []) with
          | .arr xs => xs
          | _ => []
        | _ => []
      match buildMatches base_pattern all_markets with
      | none => none
      | some ms =>
        if ms.isEmpty then none
        else
          match (sortMatches ms).filter (fun e => e.active && !pyTruthy e.closedV) with
          | [] => none
          | best :: _ => some best.market

/-- Models the offset probe loop of `_fetch_active_market_by_pattern`
(clob_client.py lines 186-196): for each offset, fetch
`f"{base_pattern}-{current_timestamp + offset}"` and return the first record
that is truthy and active. -/
def probeOffsets (g : String → HttpResp) (base_pattern : String) (W : Nat) :
    List Int → Option JVal
  | [] => none
  | off :: rest =>
    match fetch_market_by_slug g (base_pattern ++ "-" ++ pyStrOfInt ((W : Int) + off)) with
    | some m => if pyTruthy m && isActiveJ m then some m
        else probeOffsets g base_pattern W rest
    | none => probeOffsets g base_pattern W rest

/-- Models `_fetch_active_market_by_pattern` (clob_client.py lines 145-259):
derive the base pattern, probe the current-window slug first (lines 167-180),
then the offsets -900, -1800, 0, +900 (lines 186-196), then fall back to the
bulk listing search (lines 198-253). -/
def fetch_active_market_by_pattern (g : String → HttpResp) (lr : HttpResp) (now : Nat)
    (slug_pattern : String) : Option JVal :=
  let base_pattern := basePatternOf slug_pattern
  let current_timestamp := get_current_15min_timestamp now
  let first := fetch_market_by_slug g (base_pattern ++ "-" ++ pyStrOfNat current_timestamp)
  let probed :=
    if optTruthy first && isActiveJ (first.getD .null) then first
    else probeOffsets g base_pattern current_timestamp [-900, -1800, 0, 900]
  match probed with
  | some m => some m
  | none => pattern_fallback_search lr base_pattern

/-! ### C1: candidate order and fallback gating -/

/-- Candidate slugs of the specification, in the claimed priority order:
window offsets 0, -1, -2, +1 (in units of 900 s) from the current window
start `W`. -/
def candidateSlugs (base_pattern : String) (W : Nat) : List String :=
  [(W : Int), (W : Int) - 900, (W : Int) - 1800, (W : Int) + 900].map
    fun t => base_pattern ++ "-" ++ pyStrOfInt t

/-- Specification-side prober: fetch each candidate slug in order and return
the first fetched record that is truthy and active. -/
def firstActiveProbe (g : String → HttpResp) : List String → Option JVal
  | [] => none
  | s :: rest =>
    match fetch_market_by_slug g s with
    | some m => if pyTruthy m && isActiveJ m then some m else firstActiveProbe g rest
    | none => firstActiveProbe g rest

/-- Outcome of probing a single slug: the record if fetched and active. -/
def probeHit (g : String → HttpResp) (s : String) : Option JVal :=
  match fetch_market_by_slug g s with
  | some m => if pyTruthy m && isActiveJ m then some m else none
  | none => none

theorem pyStrOfInt_natCast (n : Nat) : pyStrOfInt (n : Int) = pyStrOfNat n := by
  unfold pyStrOfInt
  rw [if_neg (by omega)]
  norm_num

theorem firstActiveProbe_cons (g : String → HttpResp) (s : String) (rest : List String) :
    firstActiveProbe g (s :: rest) =
      match probeHit g s with
      | some m => some m
      | none => firstActiveProbe g rest := by
  cases hf : fetch_market_by_slug g s with
  | none => simp [firstActiveProbe, probeHit, hf]
  | some m =>
    by_cases h : (pyTruthy m && isActiveJ m) = true
    · simp [firstActiveProbe, probeHit, hf, h]
    · simp [firstActiveProbe, probeHit, hf, h]

theorem firstActiveProbe_skip (g : String → HttpResp) (s : String)
    (h : probeHit g s = none) :
    ∀ xs ys, firstActiveProbe g (xs ++ s :: ys) = firstActiveProbe g (xs ++ ys) := by
  intro xs
  induction xs with
  | nil =>
    intro ys
    rw [List.nil_append, List.nil_append, firstActiveProbe_cons, h]
  | cons x xs ih =>
    intro ys
    rw [List.cons_append, List.cons_append, firstActiveProbe_cons, firstActiveProbe_cons]
    cases probeHit g x with
    | some m => rfl
    | none => exact ih ys

theorem probeOffsets_eq (g : String → HttpResp) (base : String) (W : Nat) :
    ∀ offs : List Int, probeOffsets g base W offs =
      firstActiveProbe g (offs.map fun off => base ++ "-" ++ pyStrOfInt ((W : Int) + off)) := by
  intro offs
  induction offs with
  | nil => rfl
  | cons off rest ih =>
    simp only [probeOffsets, List.map_cons, firstActiveProbe]
    cases fetch_market_by_slug g (base ++ "-" ++ pyStrOfInt ((W : Int) + off)) with
    | none => exact ih
    | some m =>
      by_cases h : (pyTruthy m && isActiveJ m) = true <;> simp [h, ih]

/-- C1: for every base pattern and clock instant, the periodic-market
resolution probes exactly the four candidate slugs of window offsets
0, -900, -1800, +900 in that priority order, returns the first probe whose
fetched record is active, and invokes the bulk-listing fallback search only
when all candidate probes miss.  (The implementation re-fetches the offset-0
slug once more inside its loop; with a deterministic fetch oracle this
repeated probe is redundant and the observable behavior is exactly the
four-candidate cascade.) -/
theorem c1_candidate_probe_cascade (g : String → HttpResp) (lr : HttpResp) (now : Nat)
    (slug_pattern : String) :
    fetch_active_market_by_pattern g lr now slug_pattern =
      match firstActiveProbe g
          (candidateSlugs (basePatternOf slug_pattern) (get_current_15min_timestamp now)) with
      | some m => some m
      | none => pattern_fallback_search lr (basePatternOf slug_pattern) := by
  simp only [fetch_active_market_by_pattern]
  rw [probeOffsets_eq]
  simp only [candidateSlugs, List.map_cons, List.map_nil]
  set base := basePatternOf slug_pattern
  set W := get_current_15min_timestamp now
  have e0 : (W : Int) + 0 = (W : Int) := by ring
  have e1 : (W : Int) + (-900) = (W : Int) - 900 := by ring
  have e2 : (W : Int) + (-1800) = (W : Int) - 1800 := by ring
  rw [e0, e1, e2, pyStrOfInt_natCast]
  cases h0 : fetch_market_by_slug g (base ++ "-" ++ pyStrOfNat W) with
  | none =>
    have hhit : probeHit g (base ++ "-" ++ pyStrOfNat W) = none := by
      simp [probeHit, h0]
    have hskip := firstActiveProbe_skip g (base ++ "-" ++ pyStrOfNat W) hhit
      [base ++ "-" ++ pyStrOfInt ((W : Int) - 900), base ++ "-" ++ pyStrOfInt ((W : Int) - 1800)]
      [base ++ "-" ++ pyStrOfInt ((W : Int) + 900)]
    simp only [List.cons_append, List.nil_append] at hskip
    conv_rhs => rw [firstActiveProbe_cons, hhit]
    rw [if_neg (by simp [optTruthy]), hskip]
  | some m0 =>
    by_cases a0 : (pyTruthy m0 && isActiveJ m0) = true
    · have hhit : probeHit g (base ++ "-" ++ pyStrOfNat W) = some m0 := by
        simp [probeHit, h0, a0]
      conv_rhs => rw [firstActiveProbe_cons, hhit]
      have hcond : (optTruthy (some m0) && isActiveJ ((some m0).getD JVal.null)) = true := by
        simpa [optTruthy, Option.getD] using a0
      rw [if_pos hcond]
    · have hhit : probeHit g (base ++ "-" ++ pyStrOfNat W) = none := by
        simp [probeHit, h0, a0]
      have hskip := firstActiveProbe_skip g (base ++ "-" ++ pyStrOfNat W) hhit
        [base ++ "-" ++ pyStrOfInt ((W : Int) - 900), base ++ "-" ++ pyStrOfInt ((W : Int) - 1800)]
        [base ++ "-" ++ pyStrOfInt ((W : Int) + 900)]
      simp only [List.cons_append, List.nil_append] at hskip
      conv_rhs => rw [firstActiveProbe_cons, hhit]
      have hcond : ¬ (optTruthy (some m0) && isActiveJ ((some m0).getD JVal.null)) = true := by
        simpa [optTruthy, Option.getD] using a0
      rw [if_neg hcond, hskip]

/-! ### C7: properties of the fallback searcher -/

theorem insertDesc_perm (e : MatchEntry) (ms : List MatchEntry) :
    List.Perm (insertDesc e ms) (e :: ms) := by
  induction ms with
  | nil => exact List.Perm.refl _
  | cons x xs ih =>
    unfold insertDesc
    by_cases h : entryKey x ≤ entryKey e
    · rw [if_pos h]
    · rw [if_neg h]
      exact (ih.cons x).trans (List.Perm.swap e x xs)

theorem sortMatches_perm (ms : List MatchEntry) : List.Perm (sortMatches ms) ms := by
  induction ms with
  | nil => exact List.Perm.refl _
  | cons x xs ih =>
    show List.Perm (insertDesc x (sortMatches xs)) (x :: xs)
    exact (insertDesc_perm x (sortMatches xs)).trans (ih.cons x)

theorem insertDesc_sorted (e : MatchEntry) (ms : List MatchEntry)
    (h : ms.Pairwise fun a b => entryKey b ≤ entryKey a) :
    (insertDesc e ms).Pairwise fun a b => entryKey b ≤ entryKey a := by
  induction ms with
  | nil => simp [insertDesc]
  | cons x xs ih =>
    rw [List.pairwise_cons] at h
    unfold insertDesc
    by_cases hle : entryKey x ≤ entryKey e
    · rw [if_pos hle, List.pairwise_cons]
      refine ⟨?_, List.pairwise_cons.mpr h⟩
      intro a ha
      rcases List.mem_cons.mp ha with rfl | ha
      · exact hle
      · exact le_trans (h.1 a ha) hle
    · rw [if_neg hle, List.pairwise_cons]
      refine ⟨?_, ih h.2⟩
      intro a ha
      have ha' : a ∈ e :: xs := (insertDesc_perm e xs).mem_iff.mp ha
      rcases List.mem_cons.mp ha' with rfl | ha'
      · omega
      · exact h.1 a ha'

theorem sortMatches_sorted (ms : List MatchEntry) :
    (sortMatches ms).Pairwise fun a b => entryKey b ≤ entryKey a := by
  induction ms with
  | nil => simp [sortMatches]
  | cons x xs ih => exact insertDesc_sorted x (sortMatches xs) ih

theorem buildMatches_active_eq (base : String) :
    ∀ (listing : List JVal) (ms : List MatchEntry), buildMatches base listing = some ms →
      ∀ e ∈ ms, e.active = isActiveJ e.market := by
  intro listing
  induction listing with
  | nil =>
    intro ms h e he
    simp only [buildMatches] at h
    cases h
    exact absurd he (List.not_mem_nil e)
  | cons m rest ih =>
    intro ms h e he
    cases m with
    | obj fs =>
      simp only [buildMatches] at h
      by_cases ht : pyTruthy (pyGet fs "slug" (.str "")) = true
      · rw [if_pos ht] at h
        cases hv : pyGet fs "slug" (.str "") with
        | str slug =>
          simp only [hv] at h
          by_cases hm : (strContains (pyToLower slug) (pyToLower base) ||
              strStartsWith (pyToLower slug) (pyToLower base)) = true
          · rw [if_pos hm] at h
            cases hb : buildMatches base rest with
            | none => simp only [hb] at h; cases h
            | some ms' =>
              simp only [hb] at h
              cases h
              rcases List.mem_cons.mp he with rfl | he'
              · rfl
              · exact ih ms' hb e he'
          · rw [if_neg hm] at h
            exact ih ms h e he
        | null => simp only [hv] at h; cases h
        | bool b => simp only [hv] at h; cases h
        | num q => simp only [hv] at h; cases h
        | arr xs => simp only [hv] at h; cases h
        | obj fs2 => simp only [hv] at h; cases h
      · rw [if_neg ht] at h
        exact ih ms h e he
    | null => simp only [buildMatches] at h; cases h
    | bool b => simp only [buildMatches] at h; cases h
    | num q => simp only [buildMatches] at h; cases h
    | str s => simp only [buildMatches] at h; cases h
    | arr xs => simp only [buildMatches] at h; cases h

theorem fallback_result_maximal (base : String) (listing : List JVal) (ms : List MatchEntry)
    (m : JVal) (hb : buildMatches base listing = some ms)
    (h : pattern_fallback_search (.resp 200 (.arr listing)) base = some m) :
    ∃ e, e ∈ ms ∧ e.market = m ∧ (e.active && !pyTruthy e.closedV) = true ∧
      ∀ e2 ∈ ms, (e2.active && !pyTruthy e2.closedV) = true → entryKey e2 ≤ entryKey e := by
  simp only [pattern_fallback_search] at h
  rw [if_neg (by omega : ¬ 400 ≤ 200)] at h
  simp only [hb] at h
  by_cases hemp : ms.isEmpty = true
  · rw [if_pos hemp] at h
    cases h
  · rw [if_neg hemp] at h
    cases hf : (sortMatches ms).filter (fun e => e.active && !pyTruthy e.closedV) with
    | nil => simp only [hf] at h; cases h
    | cons best rest2 =>
      simp only [hf] at h
      have hm : m = best.market := (Option.some.inj h).symm
      have hbest : best ∈ sortMatches ms ∧ (best.active && !pyTruthy best.closedV) = true :=
        List.mem_filter.mp (hf ▸ List.mem_cons_self best rest2)
      have hmem : best ∈ ms := (sortMatches_perm ms).mem_iff.mp hbest.1
      refine ⟨best, hmem, hm.symm, hbest.2, ?_⟩
      intro e2 he2 hact2
      have he2f : e2 ∈ (sortMatches ms).filter (fun e => e.active && !pyTruthy e.closedV) :=
        List.mem_filter.mpr ⟨(sortMatches_perm ms).mem_iff.mpr he2, hact2⟩
      rw [hf] at he2f
      rcases List.mem_cons.mp he2f with rfl | he2f
      · exact le_refl _
      · have hsorted : ((sortMatches ms).filter
            (fun e => e.active && !pyTruthy e.closedV)).Pairwise
            fun a b => entryKey b ≤ entryKey a :=
          (sortMatches_sorted ms).sublist (List.filter_sublist _)
        rw [hf, List.pairwise_cons] at hsorted
        exact hsorted.1 e2 he2f

theorem fallback_result_active (lr : HttpResp) (base : String) (m : JVal)
    (h : pattern_fallback_search lr base = some m) : isActiveJ m = true := by
  cases lr with
  | netError => cases h
  | resp status body =>
    simp only [pattern_fallback_search] at h
    by_cases hst : 400 ≤ status
    · rw [if_pos hst] at h
      cases h
    · rw [if_neg hst] at h
      generalize hL : (match body with
        | JVal.arr xs => xs
        | JVal.obj fs =>
          match pyGet fs "data" (JVal.arr []) with
          | JVal.arr xs => xs
          | _ => []
        | _ => []) = L at h
      cases hb : buildMatches base L with
      | none => simp only [hb] at h; cases h
      | some ms =>
        simp only [hb] at h
        by_cases hemp : ms.isEmpty = true
        · rw [if_pos hemp] at h
          cases h
        · rw [if_neg hemp] at h
          cases hf : (sortMatches ms).filter (fun e => e.active && !pyTruthy e.closedV) with
          | nil => simp only [hf] at h; cases h
          | cons best rest2 =>
            simp only [hf] at h
            have hm : m = best.market := (Option.some.inj h).symm
            have hbest : best ∈ sortMatches ms ∧
                (best.active && !pyTruthy best.closedV) = true :=
              List.mem_filter.mp (hf ▸ List.mem_cons_self best rest2)
            have hmem : best ∈ ms := (sortMatches_perm ms).mem_iff.mp hbest.1
            have hact : best.active = true := (Bool.and_eq_true _ _).mp hbest.2 |>.1
            have := buildMatches_active_eq base _ ms hb best hmem
            rw [hm, ← this, hact]

/-- Projection of the slug field of a record, for stating examples. -/
def jStr : JVal → String
  | .str s => s
  | _ => ""

/-- Listing fixture: five records matching pattern "p", all active, with
extractable timestamps 100, 300, 200 and two records with no extractable
timestamp ("p-x", "p-y"). -/
def fallbackListingA : List JVal :=
  [.obj [("slug", .str "p-100"), ("active", .bool true), ("closed", .bool false)],
   .obj [("slug", .str "p-300"), ("active", .bool true), ("closed", .bool false)],
   .obj [("slug", .str "p-200"), ("active", .bool true), ("closed", .bool false)],
   .obj [("slug", .str "p-x"), ("active", .bool true), ("closed", .bool false)],
   .obj [("slug", .str "p-y"), ("active", .bool true), ("closed", .bool false)]]

/-- Listing fixture: the top-ranked match (timestamp 300) is closed and a
lower-ranked one (timestamp 100) is active. -/
def fallbackListingB : List JVal :=
  [.obj [("slug", .str "p-300"), ("active", .bool true), ("closed", .bool true)],
   .obj [("slug", .str "p-100"), ("active", .bool true), ("closed", .bool false)]]

/-- Listing fixture: every match is inactive or closed. -/
def fallbackListingC : List JVal :=
  [.obj [("slug", .str "p-300"), ("active", .bool false), ("closed", .bool false)],
   .obj [("slug", .str "p-100"), ("closed", .bool true)]]

/-- C7: the fallback search ranks pattern-matching records by extracted
trailing timestamp descending (no extractable timestamp ranks as 0, ties keep
listing order): matching timestamps [100, 300, 200] rank as [300, 200, 100];
it returns a result only from the active (active and not closed) records in
ranked order — when the top-ranked match is closed the best active one is
returned, the chosen record always has maximal key among active matches, and
when no match is active the search returns nothing rather than a closed
market. -/
theorem c7_fallback_searcher :
    ((buildMatches "p" fallbackListingA).map fun ms => (sortMatches ms).map MatchEntry.slug) =
      some ["p-300", "p-200", "p-100", "p-x", "p-y"] ∧
    ((buildMatches "p" fallbackListingA).map fun ms => (sortMatches ms).map entryKey) =
      some [300, 200, 100, 0, 0] ∧
    (pattern_fallback_search (.resp 200 (.arr fallbackListingB)) "p").map
        (fun m => jStr (jGet m "slug" (.str ""))) = some "p-100" ∧
    pattern_fallback_search (.resp 200 (.arr fallbackListingC)) "p" = none ∧
    (∀ ms : List MatchEntry,
      (sortMatches ms).Pairwise fun a b => entryKey b ≤ entryKey a) ∧
    (∀ lr base m, pattern_fallback_search lr base = some m → isActiveJ m = true) ∧
    (∀ base listing ms m, buildMatches base listing = some ms →
      pattern_fallback_search (.resp 200 (.arr listing)) base = some m →
      ∃ e, e ∈ ms ∧ e.market = m ∧ (e.active && !pyTruthy e.closedV) = true ∧
        ∀ e2 ∈ ms, (e2.active && !pyTruthy e2.closedV) = true → entryKey e2 ≤ entryKey e) := by
  refine ⟨by rfl, by rfl, by rfl, by rfl, sortMatches_sorted, fallback_result_active, ?_⟩
  intro base listing ms m hb h
  exact fallback_result_maximal base listing ms m hb h

/-- C7 witness: the general conjuncts of `c7_fallback_searcher` applied to the
concrete closed-top listing fixture. -/
theorem c7_fallback_searcher_witness :
    isActiveJ (.obj [("slug", .str "p-100"), ("active", .bool true),
      ("closed", .bool false)]) = true :=
  c7_fallback_searcher.2.2.2.2.2.1 (.resp 200 (.arr fallbackListingB)) "p"
    (.obj [("slug", .str "p-100"), ("active", .bool true), ("closed", .bool false)]) rfl

/-! ### Python float() and json.loads() -/

/-- Unsigned decimal parse for Python `float(s)`: digits with an optional
fractional part.  (Exotic accepted forms — exponents, inf, nan — do not occur
in the market data and are not relied upon by any theorem.) -/
def parseUnsignedFloat (cs : List Char) : Option Dec :=
  let intPart := cs.takeWhile Char.isDigit
  let rest := cs.dropWhile Char.isDigit
  match rest with
  | [] => if intPart.isEmpty then none else some ⟨pyIntOfChars intPart, 0⟩
  | '.' :: frac =>
    if frac.all Char.isDigit && !(intPart.isEmpty && frac.isEmpty) then
      some ⟨pyIntOfChars intPart * 10 ^ frac.length + pyIntOfChars frac, frac.length⟩
    else none
  | _ => none

/-- Models Python `float(s)` on a string: strip whitespace, optional sign,
decimal numeral; `none` models the ValueError raised otherwise. -/
def pyFloatOfStr (s : String) : Option Dec :=
  match (pyTrim s).data with
  | '-' :: rest => (parseUnsignedFloat rest).map fun d => ⟨-d.mant, d.fexp⟩
  | '+' :: rest => parseUnsignedFloat rest
  | cs => parseUnsignedFloat cs

/-- Models Python `float(v)` on a JSON value; `none` models the TypeError /
ValueError raised on None, strings that are not numerals, lists and dicts. -/
def pyFloat : JVal → Option Dec
  | .num q => some q
  | .bool b => some (if b then ⟨1, 0⟩ else ⟨0, 0⟩)
  | .str s => pyFloatOfStr s
  | _ => none

/-- JSON whitespace skipping. -/
def jsonWs (cs : List Char) : List Char :=
  cs.dropWhile fun c => c == ' ' || c == '\t' || c == '\n' || c == '\r'

/-- Opening curly bracket character. -/
def lbrace : Char := Char.ofNat 123

/-- Closing curly bracket character. -/
def rbrace : Char := Char.ofNat 125

/-- Hexadecimal digit value. -/
def hexVal (c : Char) : Option Nat :=
  if c.isDigit then some (c.toNat - 48)
  else if 'a' ≤ c && c ≤ 'f' then some (c.toNat - 87)
  else if 'A' ≤ c && c ≤ 'F' then some (c.toNat - 55)
  else none

/-- JSON string-body parser (after the opening quote), handling the common
escapes. -/
def parseJStr : List Char → Option (String × List Char)
  | [] => none
  | '"' :: rest => some ("", rest)
  | '\\' :: 'u' :: h1 :: h2 :: h3 :: h4 :: rest =>
    match hexVal h1, hexVal h2, hexVal h3, hexVal h4 with
    | some a, some b, some c, some d =>
      (parseJStr rest).map fun (s, r) =>
        (⟨Char.ofNat (((a * 16 + b) * 16 + c) * 16 + d) :: s.data⟩, r)
    | _, _, _, _ => none
  | '\\' :: e :: rest =>
    let c? : Option Char :=
      if e == '"' then some '"'
      else if e == '\\' then some '\\'
      else if e == '/' then some '/'
      else if e == 'n' then some '\n'
      else if e == 't' then some '\t'
      else if e == 'r' then some '\r'
      else if e == 'b' then some (Char.ofNat 8)
      else if e == 'f' then some (Char.ofNat 12)
      else none
    match c? with
    | some c => (parseJStr rest).map fun (s, r) => (⟨c :: s.data⟩, r)
    | none => none
  | c :: rest => (parseJStr rest).map fun (s, r) => (⟨c :: s.data⟩, r)

/-- JSON number parser. -/
def parseJNum (cs : List Char) : Option (Dec × List Char) :=
  let neg := cs.head? == some '-'
  let cs1 := if neg then cs.tail else cs
  let ip := cs1.takeWhile Char.isDigit
  let cs2 := cs1.dropWhile Char.isDigit
  if ip.isEmpty then none
  else
    let q1cs3 : Dec × List Char :=
      match cs2 with
      | '.' :: r =>
        let fd := r.takeWhile Char.isDigit
        (⟨pyIntOfChars ip * 10 ^ fd.length + pyIntOfChars fd, fd.length⟩,
          r.dropWhile Char.isDigit)
      | _ => (⟨pyIntOfChars ip, 0⟩, cs2)
    let q2cs4 : Dec × List Char :=
      match q1cs3.2 with
      | e :: r =>
        if e == 'e' || e == 'E' then
          let sr : Bool × List Char :=
            match r with
            | '-' :: rr => (true, rr)
            | '+' :: rr => (false, rr)
            | _ => (false, r)
          let ed := sr.2.takeWhile Char.isDigit
          if ed.isEmpty then q1cs3
          else ((if sr.1 then ⟨q1cs3.1.mant, q1cs3.1.fexp + pyIntOfChars ed⟩
                 else ⟨q1cs3.1.mant * 10 ^ pyIntOfChars ed, q1cs3.1.fexp⟩),
                sr.2.dropWhile Char.isDigit)
        else q1cs3
      | [] => q1cs3
    some (if neg then ⟨-q2cs4.1.mant, q2cs4.1.fexp⟩ else q2cs4.1, q2cs4.2)

/-- Literal matcher for `true` / `false` / `null` tails. -/
def expectChars : List Char → List Char → Option (List Char)
  | [], cs => some cs
  | e :: es, c :: cs => if c == e then expectChars es cs else none
  | _ :: _, [] => none

mutual

/-- Fueled JSON value parser. -/
def parseJVal : Nat → List Char → Option (JVal × List Char)
  | 0, _ => none
  | fuel + 1, cs =>
    match jsonWs cs with
    | [] => none
    | c :: rest =>
      if c == '"' then (parseJStr rest).map fun (s, r) => (.str s, r)
      else if c == '[' then
        match jsonWs rest with
        | ']' :: r2 => some (.arr [], r2)
        | _ => (parseJArr fuel rest).map fun (xs, r) => (.arr xs, r)
      else if c == lbrace then
        match jsonWs rest with
        | c2 :: r2 =>
          if c2 == rbrace then some (.obj [], r2)
          else (parseJObj fuel rest).map fun (fs, r) => (.obj fs, r)
        | [] => none
      else if c == 't' then (expectChars ['r', 'u', 'e'] rest).map fun r => (.bool true, r)
      else if c == 'f' then (expectChars ['a', 'l', 's', 'e'] rest).map fun r => (.bool false, r)
      else if c == 'n' then (expectChars ['u', 'l', 'l'] rest).map fun r => (.null, r)
      else (parseJNum (c :: rest)).map fun (q, r) => (.num q, r)

/-- Fueled JSON array-items parser (after the opening bracket). -/
def parseJArr : Nat → List Char → Option (List JVal × List Char)
  | 0, _ => none
  | fuel + 1, cs =>
    match parseJVal fuel cs with
    | none => none
    | some (v, r) =>
      match jsonWs r with
      | ',' :: r2 => (parseJArr fuel r2).map fun (xs, r3) => (v :: xs, r3)
      | ']' :: r2 => some ([v], r2)
      | _ => none

/-- Fueled JSON object-fields parser (after the opening bracket). -/
def parseJObj : Nat → List Char → Option (List (String × JVal) × List Char)
  | 0, _ => none
  | fuel + 1, cs =>
    match jsonWs cs with
    | '"' :: r =>
      match parseJStr r with
      | none => none
      | some (k, r1) =>
        match jsonWs r1 with
        | ':' :: r2 =>
          match parseJVal fuel r2 with
          | none => none
          | some (v, r3) =>
            match jsonWs r3 with
            | ',' :: r4 => (parseJObj fuel r4).map fun (fs, r5) => ((k, v) :: fs, r5)
            | c :: r4 => if c == rbrace then some ([(k, v)], r4) else none
            | [] => none
        | _ => none
    | _ => none

end

/-- Models Python `json.loads(s)`: parse one JSON value, requiring only
trailing whitespace after it; `none` models the raised JSONDecodeError. -/
def jsonLoads (s : String) : Option JVal :=
  match parseJVal (s.data.length * 2 + 2) s.data with
  | some (v, r) => if (jsonWs r).isEmpty then some v else none
  | none => none

/-! ### The market normalizer (clob_client.py lines 436-550) -/

/-- Models Python `len(v)`; `none` models the TypeError on values with no
length (numbers, booleans, None). -/
def pyLen : JVal → Option Nat
  | .str s => some s.data.length
  | .arr xs => some xs.length
  | .obj fs => some fs.length
  | _ => none

/-- Models Python `v[i]` for an int index `i < len(v)`: list indexing, string
indexing (a one-character string), and the KeyError raised by an int lookup
in a JSON-derived dict (whose keys are all strings). -/
def pyIndex : JVal → Nat → Option JVal
  | .str s, i => some (.str ⟨[s.data.getD i ' ']⟩)
  | .arr xs, i => some (xs.getD i .null)
  | _, _ => none

/-- Models Python `s.split(",")`. -/
def pySplitComma (s : String) : List String :=
  (s.data.splitOn ',').map fun cs => ⟨cs⟩

/-- Field lookup in a JSON object (Python `k in d` + `d[k]`). -/
def lookupField (fs : List (String × JVal)) (k : String) : Option JVal :=
  match fs with
  | [] => none
  | (k', v) :: rest => if k' == k then some v else lookupField rest k

/-- Models Python `str(v).strip()`-relevant rendering `str(v)` of a JSON
value.  Strings, booleans, None and integers render exactly as Python does;
fractional numbers and containers are rendered approximately — no theorem
relies on those renderings (they can only appear as token-id text). -/
def pyStrJ : JVal → String
  | .str s => s
  | .bool b => if b then "True" else "False"
  | .null => "None"
  | .num q => pyStrOfInt q.mant
  | .arr _ => "[...]"
  | .obj _ => "(dict)"

/-- Models the per-token price block of `_format_market` (clob_client.py
lines 493-504).  The whole block sits inside `try/except: pass`, so every
failure path — a JSON decode error, a non-numeric price entry, an unhashable
outcome used as dict key, a missing key — leaves the default price 0.5. -/
def tryPrices (outcome_prices : JVal) (outcome : JVal) (i : Nat) : Dec :=
  let prices? : Option JVal :=
    match outcome_prices with
    | .str s => jsonLoads s
    | v => some v
  match prices? with
  | none => Dec.half
  | some (.arr ps) =>
    if i < ps.length then
      match pyFloat (ps.getD i .null) with
      | some q => q
      | none => Dec.half
    else Dec.half
  | some (.obj fs) =>
    match outcome with
    | .str o =>
      match lookupField fs o with
      | some v =>
        match pyFloat v with
        | some q => q
        | none => Dec.half
      | none => Dec.half
    | _ => Dec.half
  | some _ => Dec.half

/-- Models one iteration of the delimited-string token loop (clob_client.py
lines 490-511): pick the outcome label by index — `len(outcome_list)` raises
TypeError on a number/boolean (none), an int lookup in a dict raises KeyError
(none) — then the try-guarded price, then the token dict. -/
def method1Token (fs : List (String × JVal)) (outcome_list : JVal) (i : Nat)
    (token_id : String) : Option JVal :=
  match pyLen outcome_list with
  | none => none
  | some L =>
    match (if i < L then pyIndex outcome_list i
           else some (.str ("Outcome " ++ pyStrOfNat (i + 1)))) with
    | none => none
    | some outcome =>
      let outcome_prices := pyGet fs "outcomePrices" (.str "")
      let price : Dec :=
        if pyTruthy outcome_prices then tryPrices outcome_prices outcome i else Dec.half
      some (.obj [("token_id", .str token_id), ("outcome", outcome),
        ("price", .num price), ("winner", .bool false)])

/-- Token loop of the delimited-string path, with the running index. -/
def buildTokens1 (fs : List (String × JVal)) (outcome_list : JVal) :
    Nat → List String → Option (List JVal)
  | _, [] => some []
  | i, tid :: rest =>
    match method1Token fs outcome_list i tid with
    | none => none
    | some t =>
      match buildTokens1 fs outcome_list (i + 1) rest with
      | some ts => some (t :: ts)
      | none => none

/-- Models the outcomes-field parsing (clob_client.py lines 462-483): a string
is JSON-decoded, falling back to a comma split; a list is taken as-is; any
other truthy value leaves the accumulator unchanged. -/
def parseOutcomesField (v : JVal) (cur : JVal) : JVal :=
  match v with
  | .str s =>
    match jsonLoads s with
    | some j => j
    | none => .arr ((pySplitComma s).map fun t => .str (pyTrim t))
  | .arr xs => .arr xs
  | _ => cur

/-- Models the delimited-string path of `_format_market` (clob_client.py
lines 446-511), entered when `clobTokenIds` is truthy. -/
def method1Tokens (fs : List (String × JVal)) : Option (List JVal) :=
  let clob_token_ids := pyGet fs "clobTokenIds" (.str "")
  let token_ids : List String :=
    match clob_token_ids with
    | .str s => ((pySplitComma s).map pyTrim).filter fun t => !t.data.isEmpty
    | .arr xs => (xs.filter pyTruthy).map fun t => pyTrim (pyStrJ t)
    | _ => []
  let outcomes := pyGet fs "outcomes" (.str "")
  let short_outcomes := pyGet fs "shortOutcomes" (.str "")
  let ol0 : JVal := .arr []
  let ol1 := if pyTruthy outcomes then parseOutcomesField outcomes ol0 else ol0
  let ol2 :=
    if !pyTruthy ol1 && pyTruthy short_outcomes then parseOutcomesField short_outcomes ol1
    else ol1
  let outcome_list := if !pyTruthy ol2 then .arr [.str "Yes", .str "No"] else ol2
  buildTokens1 fs outcome_list 0 token_ids

/-- Models Python iteration `for token in v` (clob_client.py line 515): lists
iterate elements, strings iterate one-character strings, dicts iterate their
keys; numbers and booleans raise TypeError (none). -/
def pyIter : JVal → Option (List JVal)
  | .arr xs => some xs
  | .str s => some (s.data.map fun c => .str ⟨[c]⟩)
  | .obj fs => some (fs.map fun f => .str f.1)
  | _ => none

/-- Models the structured-array token loop (clob_client.py lines 515-530).
For a dict token, `float(token.get("price", 0.5))` is **not** guarded: a
non-numeric price raises and aborts the whole normalization (none).  A string
token gets a positional outcome label; any other token is skipped. -/
def method2Go : List JVal → List JVal → Option (List JVal)
  | [], acc => some acc
  | tok :: rest, acc =>
    match tok with
    | .obj tfs =>
      match pyFloat (pyGet tfs "price" (.num Dec.half)) with
      | none => none
      | some p =>
        method2Go rest (acc ++ [.obj [("token_id", pyGet tfs "token_id" (.str "")),
          ("outcome", pyGet tfs "outcome" (.str "")), ("price", .num p),
          ("winner", pyGet tfs "winner" (.bool false))]])
    | .str s =>
      method2Go rest (acc ++ [.obj [("token_id", .str s),
        ("outcome", .str ("Outcome " ++ pyStrOfNat (acc.length + 1))),
        ("price", .num Dec.half), ("winner", .bool false)]])
    | _ => method2Go rest acc

/-- Models the structured-array path of `_format_market` (clob_client.py
lines 513-530), entered when `clobTokenIds` is falsy and `tokens` truthy. -/
def method2Tokens (tokensVal : JVal) : Option (List JVal) :=
  match pyIter tokensVal with
  | none => none
  | some items => method2Go items []

/-- Models Python `a or b`. -/
def pyOr (a b : JVal) : JVal := if pyTruthy a then a else b

/-- The canonical-market dict literal of `_format_market` (clob_client.py
lines 537-548), fields in source order. -/
def mkCanon (cid q d : JVal) (ts : List JVal) (a cl e sl es : JVal) : JVal :=
  .obj [("condition_id", cid), ("question", q), ("description", d),
    ("tokens", .arr ts), ("active", a), ("closed", cl), ("end_date", e),
    ("slug", sl), ("eventSlug", es)]

/-- Models `_format_market` (clob_client.py lines 436-550).  `none` models an
exception escaping the function (possible in both token paths, see
`method1Token` and `method2Go`; also when the argument is not a dict, since
`market.get` then raises AttributeError). -/
def format_market (market : JVal) : Option JVal :=
  match market with
  | .obj fs =>
    let tokens? : Option (List JVal) :=
      if pyTruthy (pyGet fs "clobTokenIds" (.str "")) then method1Tokens fs
      else if pyTruthy (pyGet fs "tokens" .null) then method2Tokens (pyGet fs "tokens" (.arr []))
      else some []
    match tokens? with
    | none => none
    | some tokens =>
      some (mkCanon (pyGet fs "condition_id" (.str "")) (pyGet fs "question" (.str "Unknown Market"))
        (pyGet fs "description" (.str "")) tokens (pyGet fs "active" (.bool true))
        (pyGet fs "closed" (.bool false))
        (pyOr (pyGet fs "end_date_iso" (.str "")) (pyGet fs "endDate" (.str "")))
        (pyOr (pyGet fs "slug" .null) (pyGet fs "eventSlug" (.str "")))
        (pyOr (pyGet fs "eventSlug" .null) (pyGet fs "slug" (.str ""))))
  | _ => none

/-! ### C4 and C8: shape of normalized markets -/

/-- Shape of every token dict the normalizer emits: the four fields in source
order, with a numeric price. -/
def TokShaped (t : JVal) : Prop :=
  ∃ tid out, ∃ p : Dec, ∃ w,
    t = .obj [("token_id", tid), ("outcome", out), ("price", .num p), ("winner", w)]

theorem buildTokens1_shaped (fs : List (String × JVal)) (ol : JVal) :
    ∀ (tids : List String) (i : Nat) (ts : List JVal),
      buildTokens1 fs ol i tids = some ts → ∀ t ∈ ts, TokShaped t := by
  intro tids
  induction tids with
  | nil =>
    intro i ts h t ht
    simp only [buildTokens1] at h
    cases h
    exact absurd ht (List.not_mem_nil t)
  | cons tid rest ih =>
    intro i ts h t ht
    simp only [buildTokens1] at h
    cases h1 : method1Token fs ol i tid with
    | none => simp only [h1] at h; cases h
    | some t0 =>
      simp only [h1] at h
      cases h2 : buildTokens1 fs ol (i + 1) rest with
      | none => simp only [h2] at h; cases h
      | some ts' =>
        simp only [h2] at h
        cases h
        rcases List.mem_cons.mp ht with rfl | ht'
        · simp only [method1Token] at h1
          cases hL : pyLen ol with
          | none => simp only [hL] at h1; cases h1
          | some L =>
            simp only [hL] at h1
            cases hO : (if i < L then pyIndex ol i
                else some (.str ("Outcome " ++ pyStrOfNat (i + 1)))) with
            | none => simp only [hO] at h1; cases h1
            | some outcome =>
              simp only [hO] at h1
              cases h1
              exact ⟨.str tid, outcome, _, .bool false, rfl⟩
        · exact ih (i + 1) ts' h2 t ht'

theorem method2Go_shaped :
    ∀ (items acc ts : List JVal), (∀ t ∈ acc, TokShaped t) →
      method2Go items acc = some ts → ∀ t ∈ ts, TokShaped t := by
  intro items
  induction items with
  | nil =>
    intro acc ts hacc h t ht
    simp only [method2Go] at h
    cases h
    exact hacc t ht
  | cons tok rest ih =>
    intro acc ts hacc h t ht
    cases tok with
    | obj tfs =>
      simp only [method2Go] at h
      cases hp : pyFloat (pyGet tfs "price" (.num Dec.half)) with
      | none => simp only [hp] at h; cases h
      | some p =>
        simp only [hp] at h
        refine ih _ ts ?_ h t ht
        intro t' ht'
        rcases List.mem_append.mp ht' with ht' | ht'
        · exact hacc t' ht'
        · simp only [List.mem_singleton] at ht'
          subst ht'
          exact ⟨_, _, p, _, rfl⟩
    | str s =>
      simp only [method2Go] at h
      refine ih _ ts ?_ h t ht
      intro t' ht'
      rcases List.mem_append.mp ht' with ht' | ht'
      · exact hacc t' ht'
      · simp only [List.mem_singleton] at ht'
        subst ht'
        exact ⟨_, _, Dec.half, _, rfl⟩
    | null => simp only [method2Go] at h; exact ih acc ts hacc h t ht
    | bool b => simp only [method2Go] at h; exact ih acc ts hacc h t ht
    | num q => simp only [method2Go] at h; exact ih acc ts hacc h t ht
    | arr xs => simp only [method2Go] at h; exact ih acc ts hacc h t ht

theorem format_market_shape :
    ∀ (m c : JVal), format_market m = some c →
      ∃ cid q d ts a cl e sl es, c = mkCanon cid q d ts a cl e sl es ∧
        ∀ t ∈ ts, TokShaped t := by
  intro m c h
  cases m with
  | obj fs =>
    simp only [format_market] at h
    by_cases h1 : pyTruthy (pyGet fs "clobTokenIds" (.str "")) = true
    · rw [if_pos h1] at h
      cases ht : method1Tokens fs with
      | none => simp only [ht] at h; cases h
      | some tokens =>
        simp only [ht] at h
        cases h
        refine ⟨_, _, _, tokens, _, _, _, _, _, rfl, ?_⟩
        simp only [method1Tokens] at ht
        exact buildTokens1_shaped fs _ _ 0 tokens ht
    · rw [if_neg h1] at h
      by_cases h2 : pyTruthy (pyGet fs "tokens" .null) = true
      · rw [if_pos h2] at h
        cases ht : method2Tokens (pyGet fs "tokens" (.arr [])) with
        | none => simp only [ht] at h; cases h
        | some tokens =>
          simp only [ht] at h
          cases h
          refine ⟨_, _, _, tokens, _, _, _, _, _, rfl, ?_⟩
          simp only [method2Tokens] at ht
          cases hi : pyIter (pyGet fs "tokens" (.arr [])) with
          | none => simp only [hi] at ht; cases ht
          | some items =>
            simp only [hi] at ht
            exact method2Go_shaped items [] tokens
              (fun t ht' => absurd ht' (List.not_mem_nil t)) ht
      · rw [if_neg h2] at h
        cases h
        exact ⟨_, _, _, [], _, _, _, _, _, rfl, fun t ht => absurd ht (List.not_mem_nil t)⟩
  | null => simp only [format_market] at h; cases h
  | bool b => simp only [format_market] at h; cases h
  | num q => simp only [format_market] at h; cases h
  | str s => simp only [format_market] at h; cases h
  | arr xs => simp only [format_market] at h; cases h

theorem method2Go_id :
    ∀ (ts acc : List JVal), (∀ t ∈ ts, TokShaped t) → method2Go ts acc = some (acc ++ ts) := by
  intro ts
  induction ts with
  | nil => intro acc _; simp [method2Go]
  | cons t rest ih =>
    intro acc h
    obtain ⟨tid, out, p, w, rfl⟩ := h t (List.mem_cons_self t rest)
    simp only [method2Go]
    have hprice : pyGet [("token_id", tid), ("outcome", out), ("price", JVal.num p),
        ("winner", w)] "price" (.num Dec.half) = .num p := by simp [pyGet]
    have htid : pyGet [("token_id", tid), ("outcome", out), ("price", JVal.num p),
        ("winner", w)] "token_id" (.str "") = tid := by simp [pyGet]
    have hout : pyGet [("token_id", tid), ("outcome", out), ("price", JVal.num p),
        ("winner", w)] "outcome" (.str "") = out := by simp [pyGet]
    have hwin : pyGet [("token_id", tid), ("outcome", out), ("price", JVal.num p),
        ("winner", w)] "winner" (.bool false) = w := by simp [pyGet]
    rw [hprice]
    simp only [pyFloat]
    rw [htid, hout, hwin]
    rw [ih (acc ++ [JVal.obj [("token_id", tid), ("outcome", out), ("price", JVal.num p),
      ("winner", w)]]) (fun t' ht' => h t' (List.mem_cons_of_mem _ ht'))]
    simp

theorem pyOr_empty : pyOr (.str "") (.str "") = .str "" := rfl

theorem format_market_canon (cid q d : JVal) (ts : List JVal) (a cl e sl es : JVal)
    (hts : ∀ t ∈ ts, TokShaped t) :
    format_market (mkCanon cid q d ts a cl e sl es) =
      some (mkCanon cid q d ts a cl (.str "") (pyOr sl es) (pyOr es sl)) := by
  cases ts with
  | nil =>
    simp [format_market, mkCanon, pyGet, pyTruthy, pyOr_empty]
  | cons t0 rest =>
    have hm2 : method2Tokens (.arr (t0 :: rest)) = some (t0 :: rest) := by
      simp only [method2Tokens, pyIter]
      simpa using method2Go_id (t0 :: rest) [] hts
    simp [format_market, mkCanon, pyGet, pyTruthy, hm2, pyOr_empty]

/-- Projection used to separate two canonical markets by their end_date. -/
def getEndDate (o : Option JVal) : String :=
  match o with
  | some v => jStr (jGet v "end_date" .null)
  | none => ""

/-- C8 counterexample: normalization is **not** idempotent on its own output.
A raw record carrying `endDate = "2025-12-31"` normalizes to a canonical
market with `end_date = "2025-12-31"`, but re-feeding that canonical market
through normalization yields `end_date = ""` — the normalizer reads the
`end_date_iso` / `endDate` keys, not the canonical `end_date` key. -/
theorem c8_counterexample :
    (format_market (.obj [("endDate", .str "2025-12-31")])).bind format_market ≠
      format_market (.obj [("endDate", .str "2025-12-31")]) :=
  fun h => absurd (congrArg getEndDate h) (by decide)

/-- C8 amended: re-normalizing a canonical market preserves condition_id,
question, description, tokens, active and closed, but resets end_date to the
empty string; the slug and eventSlug fields are preserved whenever they are
truthy.  In particular normalization is idempotent on every output whose
end_date is empty and whose slug fields are truthy — a sufficient condition,
not a necessary one: outputs with falsy slug fields can also be fixed
points (for example the normalization of the empty record, whose slug
fields are both the empty string). -/
theorem c8_renormalize (raw c : JVal) (h : format_market raw = some c) :
    ∃ c2, format_market c = some c2 ∧
      jGet c2 "condition_id" .null = jGet c "condition_id" .null ∧
      jGet c2 "question" .null = jGet c "question" .null ∧
      jGet c2 "description" .null = jGet c "description" .null ∧
      jGet c2 "tokens" .null = jGet c "tokens" .null ∧
      jGet c2 "active" .null = jGet c "active" .null ∧
      jGet c2 "closed" .null = jGet c "closed" .null ∧
      jGet c2 "end_date" .null = .str "" ∧
      (pyTruthy (jGet c "slug" .null) = true → jGet c2 "slug" .null = jGet c "slug" .null) ∧
      (pyTruthy (jGet c "eventSlug" .null) = true →
        jGet c2 "eventSlug" .null = jGet c "eventSlug" .null) ∧
      (jGet c "end_date" .null = .str "" →
        pyTruthy (jGet c "slug" .null) = true →
        pyTruthy (jGet c "eventSlug" .null) = true → c2 = c) := by
  obtain ⟨cid, q, d, ts, a, cl, e, sl, es, rfl, hts⟩ := format_market_shape raw c h
  refine ⟨mkCanon cid q d ts a cl (.str "") (pyOr sl es) (pyOr es sl),
    format_market_canon cid q d ts a cl e sl es hts,
    by simp [mkCanon, jGet, pyGet], by simp [mkCanon, jGet, pyGet],
    by simp [mkCanon, jGet, pyGet], by simp [mkCanon, jGet, pyGet],
    by simp [mkCanon, jGet, pyGet], by simp [mkCanon, jGet, pyGet],
    by simp [mkCanon, jGet, pyGet], ?_, ?_, ?_⟩
  · intro hsl
    have hsl' : pyTruthy sl = true := by simpa [mkCanon, jGet, pyGet] using hsl
    simp [mkCanon, jGet, pyGet, pyOr, hsl']
  · intro hes
    have hes' : pyTruthy es = true := by simpa [mkCanon, jGet, pyGet] using hes
    simp [mkCanon, jGet, pyGet, pyOr, hes']
  · intro he hsl hes
    have he' : e = .str "" := by simpa [mkCanon, jGet, pyGet] using he
    have h1 : pyOr sl es = sl := by
      simp [pyOr, by simpa [mkCanon, jGet, pyGet] using hsl]
    have h2 : pyOr es sl = es := by
      simp [pyOr, by simpa [mkCanon, jGet, pyGet] using hes]
    rw [he', h1, h2]

/-- C8 witness: the amended theorem applied to the empty raw record. -/
theorem c8_renormalize_witness :
    ∃ c2, format_market (mkCanon (.str "") (.str "Unknown Market") (.str "") []
        (.bool true) (.bool false) (.str "") (.str "") (.str "")) = some c2 ∧
      jGet c2 "condition_id" .null =
        jGet (mkCanon (.str "") (.str "Unknown Market") (.str "") []
          (.bool true) (.bool false) (.str "") (.str "") (.str "")) "condition_id" .null ∧
      jGet c2 "question" .null =
        jGet (mkCanon (.str "") (.str "Unknown Market") (.str "") []
          (.bool true) (.bool false) (.str "") (.str "") (.str "")) "question" .null ∧
      jGet c2 "description" .null =
        jGet (mkCanon (.str "") (.str "Unknown Market") (.str "") []
          (.bool true) (.bool false) (.str "") (.str "") (.str "")) "description" .null ∧
      jGet c2 "tokens" .null =
        jGet (mkCanon (.str "") (.str "Unknown Market") (.str "") []
          (.bool true) (.bool false) (.str "") (.str "") (.str "")) "tokens" .null ∧
      jGet c2 "active" .null =
        jGet (mkCanon (.str "") (.str "Unknown Market") (.str "") []
          (.bool true) (.bool false) (.str "") (.str "") (.str "")) "active" .null ∧
      jGet c2 "closed" .null =
        jGet (mkCanon (.str "") (.str "Unknown Market") (.str "") []
          (.bool true) (.bool false) (.str "") (.str "") (.str "")) "closed" .null ∧
      jGet c2 "end_date" .null = .str "" ∧
      (pyTruthy (jGet (mkCanon (.str "") (.str "Unknown Market") (.str "") []
          (.bool true) (.bool false) (.str "") (.str "") (.str "")) "slug" .null) = true →
        jGet c2 "slug" .null =
          jGet (mkCanon (.str "") (.str "Unknown Market") (.str "") []
            (.bool true) (.bool false) (.str "") (.str "") (.str "")) "slug" .null) ∧
      (pyTruthy (jGet (mkCanon (.str "") (.str "Unknown Market") (.str "") []
          (.bool true) (.bool false) (.str "") (.str "") (.str "")) "eventSlug" .null) = true →
        jGet c2 "eventSlug" .null =
          jGet (mkCanon (.str "") (.str "Unknown Market") (.str "") []
            (.bool true) (.bool false) (.str "") (.str "") (.str "")) "eventSlug" .null) ∧
      (jGet (mkCanon (.str "") (.str "Unknown Market") (.str "") []
          (.bool true) (.bool false) (.str "") (.str "") (.str "")) "end_date" .null = .str "" →
        pyTruthy (jGet (mkCanon (.str "") (.str "Unknown Market") (.str "") []
          (.bool true) (.bool false) (.str "") (.str "") (.str "")) "slug" .null) = true →
        pyTruthy (jGet (mkCanon (.str "") (.str "Unknown Market") (.str "") []
          (.bool true) (.bool false) (.str "") (.str "") (.str "")) "eventSlug" .null) = true →
        c2 = mkCanon (.str "") (.str "Unknown Market") (.str "") []
          (.bool true) (.bool false) (.str "") (.str "") (.str "")) :=
  c8_renormalize (.obj []) _ rfl

/-- Object test, as used to model the comprehension raise below. -/
def JVal.isObj : JVal → Bool
  | .obj _ => true
  | _ => false

/-- Models the condition-id fallback lookup of
`_fetch_market_by_slug_or_condition_id` (clob_client.py lines 300-316) over
the condition-id oracle `gc`: on a 200 list response, a non-dict element
makes the active-filter comprehension raise — `except: pass` then falls
through to `return None`; a non-empty list yields its first active market,
else its first element; an empty list and every other case fall through to
None; a 200 dict response is returned unvalidated. -/
def condition_id_lookup (gc : String → HttpResp) (identifier_clean : String) : Option JVal :=
  match gc identifier_clean with
  | .netError => none
  | .resp status body =>
    if status == 200 then
      match body with
      | .arr ds =>
        if ds.length > 0 then
          if ds.all JVal.isObj then
            match ds.filter isActiveJ with
            | a :: _ => some a
            | [] => ds.head?
          else none
        else none
      | .obj fs => some (.obj fs)
      | _ => none
    else none

/-- Models `_fetch_market_by_slug_or_condition_id` (clob_client.py lines
261-331): for a 15-minute identifier, the pattern search first (line 278);
then, for slug-looking identifiers (contains "-", no "0x" prefix), the direct
slug fetch, returned when truthy and active; then the condition-id fallback;
else None. -/
def fetch_market_by_slug_or_condition_id (g gc : String → HttpResp) (lr : HttpResp)
    (now : Nat) (identifier : String) : Option JVal :=
  let identifier_clean := pyTrim identifier
  let patRes : Option JVal :=
    if is_15min_interval_market identifier_clean then
      fetch_active_market_by_pattern g lr now identifier_clean
    else none
  if optTruthy patRes then patRes
  else
    let is_slug := identifier_clean.data.contains '-' && !strStartsWith identifier_clean "0x"
    let market : Option JVal :=
      if is_slug then fetch_market_by_slug g identifier_clean else none
    if optTruthy market && isActiveJ (market.getD .null) then market
    else condition_id_lookup gc identifier_clean

/-- Replace-or-append of a key in an ordered dict (Python `d[k] = x`). -/
def setKeyFields (fs : List (String × JVal)) (k : String) (x : JVal) :
    List (String × JVal) :=
  match fs with
  | [] => [(k, x)]
  | (k', v) :: rest => if k' == k then (k', x) :: rest else (k', v) :: setKeyFields rest k x

/-- Python `d[k] = x` on a JSON value (only applied to the normalizer's dict
outputs). -/
def setKey (v : JVal) (k : String) (x : JVal) : JVal :=
  match v with
  | .obj fs => .obj (setKeyFields fs k x)
  | other => other

/-- Models the bookkeeping keys added for 15-minute markets
(clob_client.py lines 382-384). -/
def addMeta (f : JVal) (condition_id : String) : JVal :=
  setKey (setKey f "_original_pattern" (.str condition_id)) "_is_15min_interval" (.bool true)

/-- Models the per-identifier body of the `get_featured_markets` loop
(clob_client.py lines 353-397): the entry appended to `featured` for this
identifier, if any.  A found-but-closed market of a 15-minute identifier is
skipped by the `continue` (lines 376-378); a formatting exception skips the
identifier (lines 394-397); the final activity check gates the append
(lines 387-393). -/
def resolveFeatured (g gc : String → HttpResp) (lr : HttpResp) (now : Nat)
    (condition_id : String) : Option JVal :=
  let market? := fetch_market_by_slug_or_condition_id g gc lr now (pyTrim condition_id)
  if optTruthy market? then
    let m := market?.getD .null
    if !isActiveJ m && is_15min_interval_market condition_id then none
    else
      match format_market m with
      | none => none
      | some f =>
        let f2 := if is_15min_interval_market condition_id then addMeta f condition_id else f
        if isActiveJ f2 then some f2 else none
  else none

/-- Models the "Market not found" record for one identifier (clob_client.py
lines 398-399): the identifier whose whole cascade produced nothing. -/
def missOf (g gc : String → HttpResp) (lr : HttpResp) (now : Nat)
    (condition_id : String) : Option String :=
  if optTruthy (fetch_market_by_slug_or_condition_id g gc lr now (pyTrim condition_id)) then
    none
  else some (pyTrim condition_id)

/-- Models the featured-markets loop (clob_client.py lines 353-399),
accumulating the featured list and the logged misses in input order. -/
def featuredLoop (g gc : String → HttpResp) (lr : HttpResp) (now : Nat) :
    List String → List JVal × List String
  | [] => ([], [])
  | condition_id :: rest =>
    let tail := featuredLoop g gc lr now rest
    if optTruthy (fetch_market_by_slug_or_condition_id g gc lr now (pyTrim condition_id)) then
      match resolveFeatured g gc lr now condition_id with
      | some f2 => (f2 :: tail.1, tail.2)
      | none => tail
    else (tail.1, pyTrim condition_id :: tail.2)

/-- Models `get_featured_markets` (clob_client.py lines 333-434) over oracles:
slug fetches `g`, condition-id fetches `gc`, the bulk listing `lr`, and the
simplified-markets data `sm` used only in the no-featured-markets fallback
mode (lines 414-425, where a formatting failure skips the record).  The
second component models the sequence of identifiers logged as "Market not
found" (line 399) — the misses; the Python function records misses only in
its log and returns just the featured list. -/
def get_featured_markets (g gc : String → HttpResp) (lr : HttpResp) (sm : List JVal)
    (now : Nat) (featured_conditions : List String) (limit : Nat) :
    List JVal × List String :=
  if featured_conditions.isEmpty then ((sm.take limit).filterMap format_market, [])
  else featuredLoop g gc lr now featured_conditions

theorem featuredLoop_eq (g gc : String → HttpResp) (lr : HttpResp) (now : Nat) :
    ∀ ids : List String,
      featuredLoop g gc lr now ids =
        (ids.filterMap (resolveFeatured g gc lr now), ids.filterMap (missOf g gc lr now)) := by
  intro ids
  induction ids with
  | nil => rfl
  | cons condition_id rest ih =>
    simp only [featuredLoop, List.filterMap_cons, ih]
    by_cases ht : optTruthy
        (fetch_market_by_slug_or_condition_id g gc lr now (pyTrim condition_id)) = true
    · rw [if_pos ht]
      have hmiss : missOf g gc lr now condition_id = none := by
        simp [missOf, ht]
      rw [hmiss]
      cases hr : resolveFeatured g gc lr now condition_id <;> simp [hr]
    · rw [if_neg ht]
      have hmiss : missOf g gc lr now condition_id = some (pyTrim condition_id) := by
        simp [missOf, ht]
      have hres : resolveFeatured g gc lr now condition_id = none := by
        simp [resolveFeatured, ht]
      rw [hmiss, hres]

/-- C2: for every non-empty batch of identifiers, batch resolution returns
the successfully resolved markets in the relative input order of their
identifiers with unresolvable identifiers omitted (no placeholders), records
every identifier whose strategy cascade produced nothing in a separate
misses sequence (the "Market not found" log records, the function's only
record of misses), and absorbs each identifier's failure — a bad identifier
contributes exactly one miss and leaves the resolution of every other
identifier unchanged, never aborting the batch. -/
theorem c2_batch_resolution (g gc : String → HttpResp) (lr : HttpResp) (sm : List JVal)
    (now : Nat) (limit : Nat) (ids : List String) (hne : ids ≠ []) :
    (get_featured_markets g gc lr sm now ids limit).1 =
      ids.filterMap (resolveFeatured g gc lr now) ∧
    (get_featured_markets g gc lr sm now ids limit).2 =
      ids.filterMap (missOf g gc lr now) ∧
    (∀ xs ys bad, ids = xs ++ bad :: ys →
      missOf g gc lr now bad = some (pyTrim bad) →
      (get_featured_markets g gc lr sm now ids limit).1 =
        xs.filterMap (resolveFeatured g gc lr now) ++
          ys.filterMap (resolveFeatured g gc lr now) ∧
      (get_featured_markets g gc lr sm now ids limit).2 =
        xs.filterMap (missOf g gc lr now) ++
          pyTrim bad :: ys.filterMap (missOf g gc lr now)) := by
  have hloop : get_featured_markets g gc lr sm now ids limit =
      (ids.filterMap (resolveFeatured g gc lr now), ids.filterMap (missOf g gc lr now)) := by
    rw [get_featured_markets, if_neg (by simpa using hne), featuredLoop_eq]
  refine ⟨by rw [hloop], by rw [hloop], ?_⟩
  intro xs ys bad hids hmiss
  have hres : resolveFeatured g gc lr now bad = none := by
    by_cases ht : optTruthy
        (fetch_market_by_slug_or_condition_id g gc lr now (pyTrim bad)) = true
    · simp [missOf, ht] at hmiss
    · simp [resolveFeatured, ht]
  subst hids
  constructor
  · rw [hloop]
    simp [List.filterMap_append, List.filterMap_cons, hres]
  · rw [hloop]
    simp [List.filterMap_append, List.filterMap_cons, hmiss]

/-- Demo slug oracle: two resolvable static slugs, everything else 404. -/
def demoG : String → HttpResp := fun s =>
  if s == "alpha-yes" then
    .resp 200 (.obj [("question", .str "A"), ("active", .bool true),
      ("closed", .bool false), ("slug", .str "alpha-yes")])
  else if s == "gamma-yes" then
    .resp 200 (.obj [("question", .str "C"), ("active", .bool true),
      ("closed", .bool false), ("slug", .str "gamma-yes")])
  else .resp 404 .null

/-- Demo condition-id oracle: always an empty result list. -/
def demoGc : String → HttpResp := fun _ => .resp 200 (.arr [])

/-- Demo listing response: an empty market list. -/
def demoLr : HttpResp := .resp 200 (.arr [])

/-- C2 witness: the no-abort conjunct of `c2_batch_resolution` applied to a
concrete three-identifier batch whose second identifier is unresolvable. -/
theorem c2_batch_resolution_witness :
    (get_featured_markets demoG demoGc demoLr [] 1700000000
        ["alpha-yes", "bad-id", "gamma-yes"] 4).1 =
      ["alpha-yes"].filterMap (resolveFeatured demoG demoGc demoLr 1700000000) ++
        ["gamma-yes"].filterMap (resolveFeatured demoG demoGc demoLr 1700000000) ∧
    (get_featured_markets demoG demoGc demoLr [] 1700000000
        ["alpha-yes", "bad-id", "gamma-yes"] 4).2 =
      ["alpha-yes"].filterMap (missOf demoG demoGc demoLr 1700000000) ++
        pyTrim "bad-id" :: ["gamma-yes"].filterMap (missOf demoG demoGc demoLr 1700000000) :=
  (c2_batch_resolution demoG demoGc demoLr [] 1700000000 4
      ["alpha-yes", "bad-id", "gamma-yes"] (by simp)).2.2
    ["alpha-yes"] ["gamma-yes"] "bad-id" rfl rfl

end Polybet
